import Mathlib

/-!
Shallow embedding of the telegram-calendar-bot repository
(src/database.py and src/main.py), covering:

* the persistence layer (`users` / `sent_events` tables and the
  `Database` methods `create_user`, `update_user_credentials`,
  `is_event_sent`, `mark_event_as_sent`, `get_active_users`);
* the calendar service (`get_events` sorting/parsing, `get_event_id`,
  `format_event_message`);
* the per-account sync task `check_events_for_user` and the periodic job
  `check_events_job`;
* the enrollment conversation steps `receive_username` /
  `receive_password`.

Timestamps are modelled as integers (seconds).  External collaborators
(the CalDAV gateway, the Telegram transport, and the SQL engine's
failure behaviour) are modelled as explicit parameters: a boolean for
connection success, an optional raw-event list for the calendar search
result (with `none` standing for a raised exception inside the search),
a per-event boolean for delivery success, and a boolean for a failing
ledger read.
-/

namespace CalBot

/-- Row of the `users` table (src/database.py, class `User`).
The `created_at`/`updated_at` audit columns are omitted: no behaviour
modelled here reads them. -/
structure UserRecord where
  id : Int
  chat_id : Int
  icloud_username : Option String
  icloud_password : Option String
  icloud_url : String
  check_interval_minutes : Int
  is_active : Bool
deriving DecidableEq, Repr

/-- Row of the `sent_events` table (src/database.py, class `SentEvent`).
The surrogate `id` key and the `sent_at` timestamp are omitted: no
behaviour modelled here reads them. -/
structure SentEvent where
  user_id : Int
  event_uid : String
deriving DecidableEq, Repr

/-- A parsed iCalendar event as used by src/main.py (`ics.Event`).
`begin` is the start instant in seconds; `duration` is in seconds. -/
structure ICSEvent where
  uid : Option String
  name : Option String
  begin : Int
  duration : Option Int
  location : Option String
  description : Option String
deriving DecidableEq, Repr

/-- Python truthiness of an optional string (`None` and `""` are falsy). -/
def optTruthy : Option String → Bool
  | some s => !(s == "")
  | none => false

/-- Rendering of an optional string inside a Python f-string
(`None` renders as the literal string "None"). -/
def optStr : Option String → String
  | some s => s
  | none => "None"

/-- Python truthiness of an optional duration (`None` and a zero
timedelta are falsy). -/
def durTruthy : Option Int → Bool
  | some d => !(d == 0)
  | none => false

/-- `Database.is_event_sent` (src/database.py lines 187-200): query the
`sent_events` table for the (user_id, event_uid) pair; on a query
error (`readError`) the `except` branch returns `False`. -/
def is_event_sent (readError : Bool) (ledger : List SentEvent)
    (user_id : Int) (event_uid : String) : Bool :=
  if readError then false
  else ledger.any (fun r => r.user_id == user_id && r.event_uid == event_uid)

/-- `Database.mark_event_as_sent` (src/database.py lines 202-216):
insert a (user_id, event_uid) row only when `is_event_sent` does not
already find one. -/
def mark_event_as_sent (readError : Bool) (ledger : List SentEvent)
    (user_id : Int) (event_uid : String) : List SentEvent :=
  if is_event_sent readError ledger user_id event_uid then ledger
  else ledger ++ [{ user_id := user_id, event_uid := event_uid }]

/-- `Database.get_active_users` (src/database.py lines 171-185): users
with the active flag set and both credential columns non-NULL. -/
def get_active_users (store : List UserRecord) : List UserRecord :=
  store.filter (fun u =>
    u.is_active && u.icloud_username.isSome && u.icloud_password.isSome)

/-- Next autoincrement primary key for the `users` table. -/
def nextUserId (store : List UserRecord) : Int :=
  (store.foldl (fun m u => max m u.id) 0) + 1

/-- `Database.create_user` (src/database.py lines 129-144): a fresh row
with the column defaults of class `User`. -/
def create_user (store : List UserRecord) (chat_id : Int) : UserRecord :=
  { id := nextUserId store
    chat_id := chat_id
    icloud_username := none
    icloud_password := none
    icloud_url := "https://caldav.icloud.com/"
    check_interval_minutes := 60
    is_active := true }

/-- The field updates performed by `Database.update_user_credentials` on
a user row tracked by its session: set both credential columns, and set
the endpoint URL only when the `icloud_url` argument is truthy. -/
def setCreds (u : UserRecord) (username : Option String) (pw : String)
    (url : Option String) : UserRecord :=
  let u1 := { u with icloud_username := username, icloud_password := some pw }
  match url with
  | some s => if s == "" then u1 else { u1 with icloud_url := s }
  | none => u1

/-- Replace the first row whose `chat_id` matches (the `.first()` query
of `update_user_credentials`); `none` when no row matches. -/
def writeCreds (chat_id : Int) (username : Option String) (pw : String)
    (url : Option String) : List UserRecord → Option (List UserRecord)
  | [] => none
  | u :: rest =>
    if u.chat_id = chat_id then some (setCreds u username pw url :: rest)
    else
      match writeCreds chat_id username pw url rest with
      | some rest' => some (u :: rest')
      | none => none

/-- `Database.update_user_credentials` (src/database.py lines 146-169):
look the user up by chat_id in the method's own session; when found, the
row is tracked by that session, so the credential assignments are
persisted by its commit.  When absent, `self.create_user(chat_id)`
inserts the fresh row (column defaults, NULL credentials) through a
separate session that is closed before returning, so the returned
instance is detached; the subsequent attribute assignments on it are
not tracked by the outer session, whose commit therefore writes no
update — the fresh row keeps its defaults.  The source returns `True`
on success either way. -/
def update_user_credentials (store : List UserRecord) (chat_id : Int)
    (username : Option String) (pw : String) (url : Option String) :
    Bool × List UserRecord :=
  match writeCreds chat_id username pw url store with
  | some store' => (true, store')
  | none => (true, store ++ [create_user store chat_id])

/-- Stable insertion of an event into a list sorted by start time
(helper for the model of Python's stable `list.sort`). -/
def insertByBegin (e : ICSEvent) : List ICSEvent → List ICSEvent
  | [] => [e]
  | f :: rest =>
    if e.begin ≤ f.begin then e :: f :: rest else f :: insertByBegin e rest

/-- Model of `parsed_events.sort(key=lambda x: x.begin.datetime)`
(src/main.py line 109): a stable sort by start time ascending. -/
def sortByBegin : List ICSEvent → List ICSEvent
  | [] => []
  | e :: rest => insertByBegin e (sortByBegin rest)

/-- `CalendarService.get_events` (src/main.py lines 82-116).  The raw
search result is `none` when `calendar.search` raises (the function
then returns `[]`); otherwise each raw calendar object either fails to
parse (`none`, skipped by the inner `except`) or contributes its list
of parsed events; the collected events are sorted by start time. -/
def get_events (searchResult : Option (List (Option (List ICSEvent)))) :
    List ICSEvent :=
  match searchResult with
  | none => []
  | some raws =>
    let parsed_events := raws.foldl (fun acc r =>
      match r with
      | some es => acc ++ es
      | none => acc) []
    sortByBegin parsed_events

/-- Abstraction of `event.begin.isoformat()`: an injective rendering of
the start instant used in the derived event identifier. -/
def isoformat (t : Int) : String := toString t

/-- `CalendarService.get_event_id` (src/main.py lines 157-162): the
native UID when truthy, otherwise title and start time combined. -/
def get_event_id (event : ICSEvent) : String :=
  if optTruthy event.uid then optStr event.uid
  else optStr event.name ++ "_" ++ isoformat event.begin

/-- Two-digit zero padding, as in strftime's %d/%H/%M fields. -/
def pad2 (n : Nat) : String :=
  if n < 10 then "0" ++ toString n else toString n

/-- English month name, as produced by strftime's %B field. -/
def monthNameEn (m : Nat) : String :=
  match m with
  | 1 => "January"
  | 2 => "February"
  | 3 => "March"
  | 4 => "April"
  | 5 => "May"
  | 6 => "June"
  | 7 => "July"
  | 8 => "August"
  | 9 => "September"
  | 10 => "October"
  | 11 => "November"
  | 12 => "December"
  | _ => ""

/-- Civil (year, month, day) from a count of days since 1970-01-01
(proleptic Gregorian), modelling the datetime library's calendar. -/
def civilFromDays (z0 : Int) : Int × Nat × Nat :=
  let z : Int := z0 + 719468
  let era : Int := z.fdiv 146097
  let doe : Nat := (z - era * 146097).toNat
  let yoe : Nat := (doe - doe / 1460 + doe / 36524 - doe / 146096) / 365
  let doy : Nat := doe - (365 * yoe + yoe / 4 - yoe / 100)
  let mp : Nat := (5 * doy + 2) / 153
  let d : Nat := doy - (153 * mp + 2) / 5 + 1
  let m : Nat := if mp < 10 then mp + 3 else mp - 9
  (((yoe : Int) + era * 400 + (if m ≤ 2 then 1 else 0)), m, d)

/-- `start_time.strftime("%d %B, %H:%M")` on an instant in seconds. -/
def strftimeDayMonthHM (t : Int) : String :=
  let days := t.fdiv 86400
  let sod : Nat := (t - days * 86400).toNat
  let c := civilFromDays days
  pad2 c.2.2 ++ " " ++ monthNameEn c.2.1 ++ ", " ++
    pad2 (sod / 3600) ++ ":" ++ pad2 (sod % 3600 / 60)

/-- `end_time.strftime("%H:%M")` on an instant in seconds. -/
def strftimeHM (t : Int) : String :=
  let days := t.fdiv 86400
  let sod : Nat := (t - days * 86400).toNat
  pad2 (sod / 3600) ++ ":" ++ pad2 (sod % 3600 / 60)

/-- The English-to-Russian month-name table of
`CalendarService.format_event_message` (src/main.py lines 136-141),
in its insertion (= iteration) order. -/
def monthsRu : List (String × String) :=
  [("January", "января"), ("February", "февраля"), ("March", "марта"),
   ("April", "апреля"), ("May", "мая"), ("June", "июня"),
   ("July", "июля"), ("August", "августа"), ("September", "сентября"),
   ("October", "октября"), ("November", "ноября"), ("December", "декабря")]

/-- `CalendarService.format_event_message` (src/main.py lines 118-155). -/
def format_event_message (event : ICSEvent) : String :=
  let lines1 : List String := ["📅 Новое событие в календаре:", ""]
  let lines2 :=
    if optTruthy event.name then lines1 ++ ["Название: " ++ optStr event.name]
    else lines1
  let time_str0 :=
    if durTruthy event.duration then
      strftimeDayMonthHM event.begin ++ "–" ++
        strftimeHM (event.begin + event.duration.getD 0)
    else strftimeDayMonthHM event.begin
  let time_str := monthsRu.foldl (fun s p => s.replace p.1 p.2) time_str0
  let lines3 := lines2 ++ ["Когда: " ++ time_str]
  let lines4 :=
    if optTruthy event.location then lines3 ++ ["Место: " ++ optStr event.location]
    else lines3
  let lines5 :=
    if optTruthy event.description then
      lines4 ++ ["Описание: " ++ optStr event.description]
    else lines4
  String.intercalate "\n" lines5

/-- Observable outcome of one sync task (or of a whole tick): the
Telegram messages sent, as (chat_id, text) pairs in send order, and the
resulting `sent_events` ledger. -/
structure SyncResult where
  sent : List (Int × String)
  ledger : List SentEvent
deriving DecidableEq, Repr

/-- The delivery loop of `check_events_for_user` (src/main.py lines
425-435): for each new event in order, send the formatted message and
then mark the event as sent.  A failing send raises out of the loop and
is caught by the function-level `except` (src/main.py lines 440-441),
so the remaining events are not attempted and the ledger keeps exactly
the records written so far. -/
def deliverLoop (user : UserRecord) (readError : Bool)
    (sinkOk : ICSEvent → Bool) :
    List ICSEvent → List SentEvent → SyncResult
  | [], ledger => { sent := [], ledger := ledger }
  | e :: rest, ledger =>
    if sinkOk e then
      let ledger1 := mark_event_as_sent readError ledger user.id (get_event_id e)
      let r := deliverLoop user readError sinkOk rest ledger1
      { sent := (user.chat_id, format_event_message e) :: r.sent
        ledger := r.ledger }
    else { sent := [], ledger := ledger }

/-- `check_events_for_user` (src/main.py lines 399-441).  `connectOk`
models whether `connect_to_calendar` succeeds (it raises on failure,
caught by the function-level `except`, so nothing else happens);
`searchResult` is the calendar search outcome fed to `get_events`;
the filter keeps events that are not recorded in the ledger and whose
start time satisfies `start - now > -3600` seconds; the surviving
events are delivered in order by `deliverLoop`. -/
def check_events_for_user (user : UserRecord) (connectOk : Bool)
    (searchResult : Option (List (Option (List ICSEvent)))) (now : Int)
    (readError : Bool) (sinkOk : ICSEvent → Bool)
    (ledger : List SentEvent) : SyncResult :=
  if connectOk then
    let events := get_events searchResult
    let new_events := events.filter (fun e =>
      !(is_event_sent readError ledger user.id (get_event_id e)) &&
      decide (e.begin - now > -3600))
    deliverLoop user readError sinkOk new_events ledger
  else { sent := [], ledger := ledger }

/-- `check_events_job` (src/main.py lines 444-457): run
`check_events_for_user` for each active user in turn (each task absorbs
its own errors, so the loop always reaches every user).  The gateway,
search and sink outcomes are per-user parameters. -/
def check_events_job (connectOk : UserRecord → Bool)
    (searchResult : UserRecord → Option (List (Option (List ICSEvent))))
    (sinkOk : UserRecord → ICSEvent → Bool) (now : Int) (readError : Bool) :
    List UserRecord → List SentEvent → SyncResult
  | [], ledger => { sent := [], ledger := ledger }
  | u :: rest, ledger =>
    let r := check_events_for_user u (connectOk u) (searchResult u) now
      readError (sinkOk u) ledger
    let rr := check_events_job connectOk searchResult sinkOk now readError
      rest r.ledger
    { sent := r.sent ++ rr.sent, ledger := rr.ledger }

/-- The values `receive_username`/`receive_password` return to the
ConversationHandler (the `ConversationState` enum of src/main.py lines
46-50, plus `ConversationHandler.END`). -/
inductive ConvState where
  | ASK_CALENDAR
  | WAIT_USERNAME
  | WAIT_PASSWORD
  | WAIT_URL
  | END
deriving DecidableEq, Repr

/-- The per-chat `context.user_data` dictionary as used by the
enrollment conversation: the pending username and pending secret. -/
structure UserData where
  icloud_username : Option String
  icloud_password : Option String
deriving DecidableEq, Repr

/-- Outcome of an enrollment step: returned conversation state,
resulting `context.user_data`, resulting `users` store. -/
structure EnrollResult where
  state : ConvState
  user_data : UserData
  store : List UserRecord
deriving DecidableEq, Repr

/-- Drop leading whitespace characters. -/
def dropLeadingWS : List Char → List Char
  | [] => []
  | c :: cs => if c.isWhitespace then dropLeadingWS cs else c :: cs

/-- Python's `str.strip()`: remove leading and trailing whitespace. -/
def pyStrip (s : String) : String :=
  ⟨List.reverse (dropLeadingWS (List.reverse (dropLeadingWS s.data)))⟩

/-- `receive_username` (src/main.py lines 264-276): store the stripped
text as the pending username and move to the password state. -/
def receive_username (text : String) (ud : UserData) : ConvState × UserData :=
  (ConvState.WAIT_PASSWORD, { ud with icloud_username := some (pyStrip text) })

/-- `receive_password` (src/main.py lines 279-324): store the stripped
text as the pending secret, then attempt `connect_to_calendar` against
the default endpoint (`connectOk` models its outcome).  On success,
write the credentials through `update_user_credentials` with the
default URL, clear `context.user_data`, and end the conversation.  On
failure, return to the username state; the source does not clear
`context.user_data` on this path. -/
def receive_password (chat_id : Int) (text : String) (ud : UserData)
    (connectOk : Bool) (store : List UserRecord) : EnrollResult :=
  let password := pyStrip text
  let ud1 : UserData := { ud with icloud_password := some password }
  if connectOk then
    { state := ConvState.END
      user_data := { icloud_username := none, icloud_password := none }
      store := (update_user_credentials store chat_id ud1.icloud_username
        password (some "https://caldav.icloud.com/")).2 }
  else { state := ConvState.WAIT_USERNAME, user_data := ud1, store := store }

/-! ## Concrete fixtures used by single-input theorems -/

/-- A concrete parsed event with native UID "uid-A". -/
def evA : ICSEvent :=
  { uid := some "uid-A", name := some "Встреча A", begin := 100,
    duration := none, location := none, description := none }

/-- A concrete parsed event with native UID "uid-B", starting after `evA`. -/
def evB : ICSEvent :=
  { uid := some "uid-B", name := some "Встреча B", begin := 200,
    duration := none, location := none, description := none }

/-- A concrete enrolled user row. -/
def user0 : UserRecord :=
  { id := 1, chat_id := 10, icloud_username := some "a@b.com",
    icloud_password := some "secret", icloud_url := "https://caldav.icloud.com/",
    check_interval_minutes := 60, is_active := true }

/-! ## Ledger lemmas -/

/-- Number of `sent_events` rows for a given (user, event) pair. -/
def countEntry (ledger : List SentEvent) (user_id : Int) (event_uid : String) :
    Nat :=
  ledger.countP (fun r => r.user_id == user_id && r.event_uid == event_uid)

/-- A sequence of `mark_event_as_sent` calls applied to a ledger; every
ledger the program builds is obtained this way, since marking is the
only ledger write in the source. -/
def applyMarks : List (Int × String) → List SentEvent → List SentEvent
  | [], ledger => ledger
  | p :: t, ledger => applyMarks t (mark_event_as_sent false ledger p.1 p.2)

theorem is_event_sent_false_eq (ledger : List SentEvent) (u : Int)
    (e : String) :
    is_event_sent false ledger u e
      = ledger.any (fun r => r.user_id == u && r.event_uid == e) := rfl

theorem countEntry_append (L1 L2 : List SentEvent) (u : Int) (e : String) :
    countEntry (L1 ++ L2) u e = countEntry L1 u e + countEntry L2 u e := by
  simp [countEntry, List.countP_append]

theorem countEntry_singleton (u' : Int) (e' : String) (u : Int) (e : String) :
    countEntry [{ user_id := u', event_uid := e' }] u e
      = if u' = u ∧ e' = e then 1 else 0 := by
  simp only [countEntry, List.countP_cons, List.countP_nil]
  by_cases hu : u' = u <;> by_cases he : e' = e <;> simp [hu, he]

theorem is_event_sent_iff_countEntry_pos (ledger : List SentEvent) (u : Int)
    (e : String) :
    is_event_sent false ledger u e = true ↔ 0 < countEntry ledger u e := by
  rw [is_event_sent_false_eq]
  simp [countEntry, List.any_eq_true, List.countP_pos_iff]

theorem is_event_sent_mark_self (ledger : List SentEvent) (u : Int)
    (e : String) :
    is_event_sent false (mark_event_as_sent false ledger u e) u e = true := by
  unfold mark_event_as_sent
  split
  next h => exact h
  next h =>
    rw [is_event_sent_false_eq, List.any_append]
    simp

theorem is_event_sent_mono_mark (ledger : List SentEvent) (u : Int) (e : String)
    (u' : Int) (e' : String)
    (h : is_event_sent false ledger u e = true) :
    is_event_sent false (mark_event_as_sent false ledger u' e') u e = true := by
  unfold mark_event_as_sent
  split
  · exact h
  · rw [is_event_sent_false_eq] at h
    rw [is_event_sent_false_eq, List.any_append, h, Bool.true_or]

theorem is_event_sent_applyMarks (ops : List (Int × String)) :
    ∀ (ledger : List SentEvent) (u : Int) (e : String),
      is_event_sent false ledger u e = true →
      is_event_sent false (applyMarks ops ledger) u e = true := by
  induction ops with
  | nil => intro ledger u e h; exact h
  | cons p t ih =>
    intro ledger u e h
    exact ih _ u e (is_event_sent_mono_mark ledger u e p.1 p.2 h)

theorem countEntry_mark_le_one (ledger : List SentEvent) (u' : Int)
    (e' : String) (u : Int) (e : String)
    (h : countEntry ledger u e ≤ 1) :
    countEntry (mark_event_as_sent false ledger u' e') u e ≤ 1 := by
  unfold mark_event_as_sent
  split
  next hs => exact h
  next hs =>
    rw [countEntry_append, countEntry_singleton]
    by_cases hme : u' = u ∧ e' = e
    · rw [if_pos hme]
      obtain ⟨hu, he⟩ := hme
      subst hu
      subst he
      have h0 : countEntry ledger u' e' = 0 := by
        by_contra hne
        exact hs ((is_event_sent_iff_countEntry_pos ledger u' e').2
          (Nat.pos_of_ne_zero hne))
      omega
    · rw [if_neg hme]
      omega

theorem countEntry_applyMarks_le_one (ops : List (Int × String)) :
    ∀ ledger : List SentEvent, (∀ (u : Int) (e : String), countEntry ledger u e ≤ 1) →
      ∀ (u : Int) (e : String), countEntry (applyMarks ops ledger) u e ≤ 1 := by
  induction ops with
  | nil => intro ledger h u e; exact h u e
  | cons p t ih =>
    intro ledger h u e
    exact ih _ (fun u' e' => countEntry_mark_le_one ledger p.1 p.2 u' e' (h u' e')) u e

/-! ## Delivery-loop and job lemmas -/

theorem mark_keeps_mem (re : Bool) (ledger : List SentEvent) (u : Int)
    (e : String) (r : SentEvent) (h : r ∈ ledger) :
    r ∈ mark_event_as_sent re ledger u e := by
  unfold mark_event_as_sent
  split
  · exact h
  · exact List.mem_append_left _ h

theorem deliverLoop_keeps_mem (user : UserRecord) (re : Bool)
    (sinkOk : ICSEvent → Bool) :
    ∀ (l : List ICSEvent) (ledger : List SentEvent) (r : SentEvent),
      r ∈ ledger → r ∈ (deliverLoop user re sinkOk l ledger).ledger := by
  intro l
  induction l with
  | nil => intro ledger r h; exact h
  | cons e rest ih =>
    intro ledger r h
    simp only [deliverLoop]
    split
    · exact ih _ r (mark_keeps_mem re ledger user.id (get_event_id e) r h)
    · exact h

theorem deliverLoop_append_fail (user : UserRecord) (re : Bool)
    (sinkOk : ICSEvent → Bool) (e : ICSEvent) (l2 : List ICSEvent)
    (h2 : sinkOk e = false) :
    ∀ (l1 : List ICSEvent) (ledger : List SentEvent),
      (∀ x ∈ l1, sinkOk x = true) →
      deliverLoop user re sinkOk (l1 ++ e :: l2) ledger
        = deliverLoop user re sinkOk l1 ledger := by
  intro l1
  induction l1 with
  | nil =>
    intro ledger _
    simp [deliverLoop, h2]
  | cons x t ih =>
    intro ledger h1
    have hx : sinkOk x = true := h1 x (List.mem_cons_self x t)
    simp only [List.cons_append, deliverLoop, hx, if_true, List.append_eq]
    rw [ih _ (fun y hy => h1 y (List.mem_cons_of_mem x hy))]

theorem check_user_connect_false (user : UserRecord)
    (searchResult : Option (List (Option (List ICSEvent)))) (now : Int)
    (readError : Bool) (sinkOk : ICSEvent → Bool) (ledger : List SentEvent) :
    check_events_for_user user false searchResult now readError sinkOk ledger
      = { sent := [], ledger := ledger } := rfl

/-! ## Sorting lemmas -/

theorem mem_insertByBegin (e x : ICSEvent) (l : List ICSEvent) :
    x ∈ insertByBegin e l ↔ x = e ∨ x ∈ l := by
  induction l with
  | nil => simp [insertByBegin]
  | cons f rest ih =>
    simp only [insertByBegin]
    split
    · simp [List.mem_cons]
    · simp only [List.mem_cons, ih]
      tauto

theorem pairwise_insertByBegin (e : ICSEvent) (l : List ICSEvent)
    (h : l.Pairwise (fun a b => a.begin ≤ b.begin)) :
    (insertByBegin e l).Pairwise (fun a b => a.begin ≤ b.begin) := by
  induction l with
  | nil => simp [insertByBegin]
  | cons f rest ih =>
    rw [List.pairwise_cons] at h
    obtain ⟨hf, hrest⟩ := h
    simp only [insertByBegin]
    split
    next hle =>
      rw [List.pairwise_cons]
      refine ⟨?_, List.pairwise_cons.2 ⟨hf, hrest⟩⟩
      intro y hy
      rcases List.mem_cons.1 hy with hyf | hyr
      · rw [hyf]; exact hle
      · exact le_trans hle (hf y hyr)
    next hgt =>
      rw [List.pairwise_cons]
      refine ⟨?_, ih hrest⟩
      intro y hy
      rcases (mem_insertByBegin e y rest).1 hy with hye | hyr
      · rw [hye]; omega
      · exact hf y hyr

theorem pairwise_sortByBegin (l : List ICSEvent) :
    (sortByBegin l).Pairwise (fun a b => a.begin ≤ b.begin) := by
  induction l with
  | nil => simp [sortByBegin]
  | cons e rest ih => exact pairwise_insertByBegin e _ ih

theorem pairwise_get_events
    (searchResult : Option (List (Option (List ICSEvent)))) :
    (get_events searchResult).Pairwise (fun a b => a.begin ≤ b.begin) := by
  cases searchResult with
  | none => simp [get_events]
  | some raws => exact pairwise_sortByBegin _

theorem filter_insertByBegin_pos (e : ICSEvent) (b : Int) (he : e.begin = b) :
    ∀ l : List ICSEvent,
      (insertByBegin e l).filter (fun x => x.begin == b)
        = e :: l.filter (fun x => x.begin == b) := by
  intro l
  induction l with
  | nil => simp [insertByBegin, List.filter, he]
  | cons f rest ih =>
    simp only [insertByBegin]
    split
    next hle => simp [List.filter_cons, he]
    next hgt =>
      have hf : (f.begin == b) = false := by
        simp only [beq_eq_false_iff_ne, ne_eq]
        omega
      simp [List.filter_cons, hf, ih]

theorem filter_insertByBegin_neg (e : ICSEvent) (b : Int) (he : ¬ e.begin = b) :
    ∀ l : List ICSEvent,
      (insertByBegin e l).filter (fun x => x.begin == b)
        = l.filter (fun x => x.begin == b) := by
  intro l
  induction l with
  | nil =>
    have hb : (e.begin == b) = false := by simp [he]
    simp [insertByBegin, List.filter_cons, hb]
  | cons f rest ih =>
    simp only [insertByBegin]
    split
    · simp [List.filter_cons, he]
    · simp [List.filter_cons, ih]

theorem sortByBegin_stable (b : Int) :
    ∀ l : List ICSEvent,
      (sortByBegin l).filter (fun e => e.begin == b)
        = l.filter (fun e => e.begin == b) := by
  intro l
  induction l with
  | nil => rfl
  | cons e rest ih =>
    simp only [sortByBegin]
    by_cases he : e.begin = b
    · rw [filter_insertByBegin_pos e b he, ih]
      simp [List.filter_cons, he]
    · rw [filter_insertByBegin_neg e b he, ih]
      simp [List.filter_cons, he]

/-! ## Delivered-prefix lemmas -/

/-- The events actually delivered by the loop: the leading run on which
the sink succeeds, cut short at the first failure. -/
def deliveredPart (sinkOk : ICSEvent → Bool) : List ICSEvent → List ICSEvent
  | [] => []
  | e :: rest => if sinkOk e then e :: deliveredPart sinkOk rest else []

theorem deliveredPart_sublist (sinkOk : ICSEvent → Bool) :
    ∀ l : List ICSEvent, List.Sublist (deliveredPart sinkOk l) l := by
  intro l
  induction l with
  | nil => simp [deliveredPart]
  | cons e rest ih =>
    simp only [deliveredPart]
    split
    · exact List.Sublist.cons₂ e ih
    · exact List.nil_sublist _

theorem deliveredPart_true (l : List ICSEvent) :
    deliveredPart (fun _ => true) l = l := by
  induction l with
  | nil => rfl
  | cons e rest ih => simp [deliveredPart, ih]

theorem deliverLoop_sent_eq (user : UserRecord) (re : Bool)
    (sinkOk : ICSEvent → Bool) :
    ∀ (l : List ICSEvent) (ledger : List SentEvent),
      (deliverLoop user re sinkOk l ledger).sent
        = (deliveredPart sinkOk l).map
          (fun e => (user.chat_id, format_event_message e)) := by
  intro l
  induction l with
  | nil => intro ledger; rfl
  | cons e rest ih =>
    intro ledger
    by_cases h : sinkOk e = true
    · simp only [deliverLoop, deliveredPart, h, if_true, List.map_cons]
      simp [ih]
    · have h' : sinkOk e = false := by revert h; cases sinkOk e <;> simp
      simp [deliverLoop, deliveredPart, h']

/-! ## Sync-task equations -/

theorem is_event_sent_of_mem (ledger : List SentEvent) (u : Int) (e : String)
    (r : SentEvent) (hr : r ∈ ledger) (h1 : r.user_id = u)
    (h2 : r.event_uid = e) :
    is_event_sent false ledger u e = true := by
  rw [is_event_sent_false_eq]
  exact List.any_eq_true.2 ⟨r, hr, by simp [h1, h2]⟩

theorem is_event_sent_elim (ledger : List SentEvent) (u : Int) (e : String)
    (h : is_event_sent false ledger u e = true) :
    ∃ r ∈ ledger, r.user_id = u ∧ r.event_uid = e := by
  rw [is_event_sent_false_eq] at h
  obtain ⟨r, hr, hp⟩ := List.any_eq_true.1 h
  exact ⟨r, hr, by simpa using hp⟩

theorem is_event_sent_mono_deliverLoop (user : UserRecord) (re : Bool)
    (sinkOk : ICSEvent → Bool) (l : List ICSEvent) (ledger : List SentEvent)
    (u : Int) (e : String)
    (h : is_event_sent false ledger u e = true) :
    is_event_sent false (deliverLoop user re sinkOk l ledger).ledger u e
      = true := by
  obtain ⟨r, hr, h1, h2⟩ := is_event_sent_elim ledger u e h
  exact is_event_sent_of_mem _ u e r
    (deliverLoop_keeps_mem user re sinkOk l ledger r hr) h1 h2

theorem deliverLoop_marks_all (user : UserRecord) :
    ∀ (l : List ICSEvent) (ledger : List SentEvent) (x : ICSEvent), x ∈ l →
      is_event_sent false
        (deliverLoop user false (fun _ => true) l ledger).ledger
        user.id (get_event_id x) = true := by
  intro l
  induction l with
  | nil => intro _ x hx; cases hx
  | cons e rest ih =>
    intro ledger x hx
    rcases List.mem_cons.1 hx with hxe | hx'
    · subst hxe
      exact is_event_sent_mono_deliverLoop user false (fun _ => true) rest
        (mark_event_as_sent false ledger user.id (get_event_id x))
        user.id (get_event_id x)
        (is_event_sent_mark_self ledger user.id (get_event_id x))
    · exact ih (mark_event_as_sent false ledger user.id (get_event_id e)) x hx'

theorem check_user_unfold (user : UserRecord)
    (searchResult : Option (List (Option (List ICSEvent)))) (now : Int)
    (readError : Bool) (sinkOk : ICSEvent → Bool) (ledger : List SentEvent) :
    check_events_for_user user true searchResult now readError sinkOk ledger
      = deliverLoop user readError sinkOk
        ((get_events searchResult).filter (fun e =>
          !(is_event_sent readError ledger user.id (get_event_id e)) &&
          decide (e.begin - now > -3600))) ledger := rfl

theorem check_user_sent_eq (user : UserRecord)
    (searchResult : Option (List (Option (List ICSEvent)))) (now : Int)
    (readError : Bool) (ledger : List SentEvent) :
    (check_events_for_user user true searchResult now readError (fun _ => true)
      ledger).sent
      = ((get_events searchResult).filter (fun e =>
          !(is_event_sent readError ledger user.id (get_event_id e)) &&
          decide (e.begin - now > -3600))).map
        (fun e => (user.chat_id, format_event_message e)) := by
  rw [check_user_unfold, deliverLoop_sent_eq, deliveredPart_true]

/-! ## Claim theorems (first batch) -/

/-- Claim C1: for every ledger reachable from the empty ledger by
`mark_event_as_sent` operations, once a delivery of event `e` to account
`a` is recorded via `mark_event_as_sent`, every subsequent
`is_event_sent` query for `(a, id e)` returns true — no matter which
further marks happen — and the ledger holds at most one record for the
pair. -/
theorem c1_mark_then_sent_and_unique (ops1 : List (Int × String)) (u : Int)
    (e : String) (ops2 : List (Int × String)) :
    is_event_sent false (applyMarks ops2
      (mark_event_as_sent false (applyMarks ops1 []) u e)) u e = true ∧
    countEntry (applyMarks ops2
      (mark_event_as_sent false (applyMarks ops1 []) u e)) u e ≤ 1 := by
  constructor
  · exact is_event_sent_applyMarks ops2 _ u e (is_event_sent_mark_self _ u e)
  · apply countEntry_applyMarks_le_one
    intro u' e'
    apply countEntry_mark_le_one
    exact countEntry_applyMarks_le_one ops1 []
      (by intro u'' e''; simp [countEntry]) u' e'

/-- Claim C5, counterexample to the claim as stated: with username
"a@b.com" collected and secret "badpass" entered, a failing connectivity
check returns the machine to the username-collection state and writes no
credential record, but the pending secret is NOT discarded from session
storage — `context.user_data` still holds it. -/
theorem c5_counterexample :
    (receive_password 1 "badpass"
      { icloud_username := some "a@b.com", icloud_password := none }
      false []).user_data.icloud_password = some "badpass" ∧
    ¬ ((receive_password 1 "badpass"
      { icloud_username := some "a@b.com", icloud_password := none }
      false []).user_data.icloud_password = none) ∧
    (receive_password 1 "badpass"
      { icloud_username := some "a@b.com", icloud_password := none }
      false []).state = ConvState.WAIT_USERNAME ∧
    (receive_password 1 "badpass"
      { icloud_username := some "a@b.com", icloud_password := none }
      false []).store = [] := by
  refine ⟨by decide, by decide, rfl, rfl⟩

/-- Claim C5 (amended): if the connectivity check fails in the
password-collection step, the machine re-enters the username-collection
state and no credential record is written to the store, but the pending
username and secret remain in session storage (the source clears
`context.user_data` only on success or explicit cancel). -/
theorem c5_connect_failure_no_write (chat_id : Int) (text : String)
    (ud : UserData) (store : List UserRecord) :
    receive_password chat_id text ud false store =
      { state := ConvState.WAIT_USERNAME
        user_data := { ud with icloud_password := some (pyStrip text) }
        store := store } := rfl

/-- Claim C7: if the account's sync task fails at the fetch step —
either the calendar connection raises (transport/auth), or the calendar
search raises (transport/parse, making `get_events` return the empty
list) — the task ends with no deliveries and an unchanged ledger, so it
has no effect on later ticks. -/
theorem c7_fetch_failure_no_effect :
    (∀ (user : UserRecord)
      (searchResult : Option (List (Option (List ICSEvent)))) (now : Int)
      (readError : Bool) (sinkOk : ICSEvent → Bool) (ledger : List SentEvent),
      check_events_for_user user false searchResult now readError sinkOk ledger
        = { sent := [], ledger := ledger }) ∧
    (∀ (user : UserRecord) (now : Int) (readError : Bool)
      (sinkOk : ICSEvent → Bool) (ledger : List SentEvent),
      check_events_for_user user true none now readError sinkOk ledger
        = { sent := [], ledger := ledger }) :=
  ⟨fun _ _ _ _ _ _ => rfl, fun _ _ _ _ _ => rfl⟩

/-- Claim C10: a failing ledger read makes `is_event_sent` return false
instead of propagating the error, so the sync task treats every event as
not yet delivered; concretely, an event whose delivery record IS in the
ledger is delivered again when the dedup read errors. -/
theorem c10_read_error_redelivers :
    (∀ (ledger : List SentEvent) (u : Int) (e : String),
      is_event_sent true ledger u e = false) ∧
    is_event_sent false [{ user_id := user0.id, event_uid := get_event_id evA }]
      user0.id (get_event_id evA) = true ∧
    (check_events_for_user user0 true (some [some [evA]]) 0 true (fun _ => true)
      [{ user_id := user0.id, event_uid := get_event_id evA }]).sent
      = [(user0.chat_id, format_event_message evA)] := by
  refine ⟨fun _ _ _ => rfl, by decide, rfl⟩

/-- Delivery sink that fails exactly on `evA`. -/
def sinkFailA : ICSEvent → Bool := fun ev => !(ev == evA)

/-- Claim C2, counterexample to the claim as stated: with two eligible
events `evA`, `evB` (in sorted order) and a sink that fails on `evA` but
would accept `evB`, the task sends nothing — the failure on the first
event prevents the delivery attempt for the second (the exception
escapes the loop to the task-level `except`). -/
theorem c2_counterexample :
    sinkFailA evB = true ∧
    (check_events_for_user user0 true (some [some [evA, evB]]) 0 false
      sinkFailA []).sent = [] ∧
    (check_events_for_user user0 true (some [some [evB]]) 0 false
      sinkFailA []).sent = [(user0.chat_id, format_event_message evB)] :=
  ⟨by decide, rfl, rfl⟩

/-- Claim C2 (amended): within one account's sync task, a delivery
failure on one event aborts the remaining delivery loop for that tick —
events after the failing one are not attempted — while deliveries made
and recorded before the failure are kept: no recorded delivery is
rolled back (every prior ledger record survives). -/
theorem c2_delivery_failure_aborts_rest (user : UserRecord) (re : Bool)
    (sinkOk : ICSEvent → Bool) (l1 : List ICSEvent) (e : ICSEvent)
    (l2 : List ICSEvent) (ledger : List SentEvent)
    (h1 : ∀ x ∈ l1, sinkOk x = true) (h2 : sinkOk e = false) :
    deliverLoop user re sinkOk (l1 ++ e :: l2) ledger
      = deliverLoop user re sinkOk l1 ledger ∧
    ∀ r ∈ ledger, r ∈ (deliverLoop user re sinkOk (l1 ++ e :: l2) ledger).ledger :=
  ⟨deliverLoop_append_fail user re sinkOk e l2 h2 l1 ledger h1,
   fun r hr => deliverLoop_keeps_mem user re sinkOk _ ledger r hr⟩

/-- Witness for C2 (amended) at a concrete input: the sink accepts `evB`
and fails on `evA`; delivering `[evB, evA, evB]` equals delivering just
`[evB]` — everything after the failing event is dropped. -/
theorem c2_delivery_failure_aborts_rest_witness :
    (∀ x ∈ [evB], sinkFailA x = true) ∧ sinkFailA evA = false ∧
    deliverLoop user0 false sinkFailA ([evB] ++ evA :: [evB]) []
      = deliverLoop user0 false sinkFailA [evB] [] :=
  ⟨by decide, by decide,
   (c2_delivery_failure_aborts_rest user0 false sinkFailA [evB] evA [evB] []
     (by decide) (by decide)).1⟩

/-! ## Fixtures for the three-account scheduler scenario -/

/-- First eligible account. -/
def user1 : UserRecord :=
  { id := 1, chat_id := 11, icloud_username := some "one@b.com",
    icloud_password := some "p1", icloud_url := "https://caldav.icloud.com/",
    check_interval_minutes := 60, is_active := true }

/-- Second eligible account (the one whose gateway call fails). -/
def user2 : UserRecord :=
  { id := 2, chat_id := 12, icloud_username := some "two@b.com",
    icloud_password := some "p2", icloud_url := "https://caldav.icloud.com/",
    check_interval_minutes := 60, is_active := true }

/-- Third eligible account. -/
def user3 : UserRecord :=
  { id := 3, chat_id := 13, icloud_username := some "three@b.com",
    icloud_password := some "p3", icloud_url := "https://caldav.icloud.com/",
    check_interval_minutes := 60, is_active := true }

/-- Gateway outcome: the connection fails exactly for account `user2`. -/
def connectFail2 : UserRecord → Bool := fun u => !(u.id == 2)

/-- Claim C3: a failing account's sync task is transparent to the rest
of the tick — running the job over the accounts with the failing account
present gives exactly the same messages and ledger as running it with
that account removed, so every other account's deliveries still happen
in the same tick. -/
theorem c3_failed_account_is_isolated (connectOk : UserRecord → Bool)
    (searchResult : UserRecord → Option (List (Option (List ICSEvent))))
    (sinkOk : UserRecord → ICSEvent → Bool) (now : Int) (readError : Bool)
    (us1 : List UserRecord) (u2 : UserRecord) (us3 : List UserRecord)
    (ledger : List SentEvent) (h : connectOk u2 = false) :
    check_events_job connectOk searchResult sinkOk now readError
      (us1 ++ u2 :: us3) ledger
      = check_events_job connectOk searchResult sinkOk now readError
        (us1 ++ us3) ledger := by
  induction us1 generalizing ledger with
  | nil =>
    simp only [List.nil_append, check_events_job, h, check_user_connect_false]
  | cons x t ih =>
    simp only [List.cons_append, check_events_job, List.append_eq]
    rw [ih]

/-- Witness for C3 at the spec's concrete scenario: three eligible
accounts, account 2's gateway call fails; the tick equals the tick
without account 2, and accounts 1 and 3 still receive their
deliveries. -/
theorem c3_failed_account_is_isolated_witness :
    connectFail2 user2 = false ∧
    check_events_job connectFail2 (fun _ => some [some [evA]]) (fun _ _ => true)
      0 false [user1, user2, user3] []
      = check_events_job connectFail2 (fun _ => some [some [evA]])
        (fun _ _ => true) 0 false [user1, user3] [] ∧
    (check_events_job connectFail2 (fun _ => some [some [evA]]) (fun _ _ => true)
      0 false [user1, user2, user3] []).sent
      = [(user1.chat_id, format_event_message evA),
         (user3.chat_id, format_event_message evA)] :=
  ⟨by decide,
   c3_failed_account_is_isolated connectFail2 (fun _ => some [some [evA]])
     (fun _ _ => true) 0 false [user1] user2 [user3] [] (by decide),
   rfl⟩

/-- A concrete event starting exactly 3600 seconds before `now = 0`. -/
def evOld : ICSEvent :=
  { uid := some "uid-old", name := some "Старое", begin := -3600,
    duration := none, location := none, description := none }

/-- A concrete event starting exactly 61 minutes before `now = 0`. -/
def ev61 : ICSEvent :=
  { uid := some "uid-61", name := some "Ранее", begin := -3660,
    duration := none, location := none, description := none }

/-- A concrete event starting exactly 59 minutes before `now = 0`. -/
def ev59 : ICSEvent :=
  { uid := some "uid-59", name := some "Недавнее", begin := -3540,
    duration := none, location := none, description := none }

/-- Claim C4, counterexample to the claim as stated: an unrecorded event
whose start time is exactly 3600 seconds in the past ("at most 3600
seconds in the past" admits it) is NOT delivered — the code's test
`start - now > -3600` is strict, so the boundary instant is excluded. -/
theorem c4_counterexample :
    ((0 : Int) - evOld.begin ≤ 3600) ∧
    is_event_sent false [] user0.id (get_event_id evOld) = false ∧
    (check_events_for_user user0 true (some [some [evOld]]) 0 false
      (fun _ => true) []).sent = [] :=
  ⟨by decide, rfl, rfl⟩

/-- Claim C4 (amended): the recency filter admits a fetched event iff
its start time is strictly less than 3600 seconds in the past
(`start - now > -3600`); an event exactly 61 minutes past is excluded,
one exactly 3600 seconds past is excluded, one exactly 59 minutes past
is included; and when the sink accepts every message, exactly the
admitted events not recorded in the ledger are delivered, in order. -/
theorem c4_recency_window_strict :
    (∀ (user : UserRecord)
      (searchResult : Option (List (Option (List ICSEvent)))) (now : Int)
      (readError : Bool) (ledger : List SentEvent),
      (check_events_for_user user true searchResult now readError
        (fun _ => true) ledger).sent
        = ((get_events searchResult).filter (fun e =>
            !(is_event_sent readError ledger user.id (get_event_id e)) &&
            decide (e.begin - now > -3600))).map
          (fun e => (user.chat_id, format_event_message e))) ∧
    (∀ (user : UserRecord) (now : Int) (ledger : List SentEvent)
      (e : ICSEvent), e.begin = now - 3660 →
      (check_events_for_user user true (some [some [e]]) now false
        (fun _ => true) ledger).sent = []) ∧
    (∀ (user : UserRecord) (now : Int) (ledger : List SentEvent)
      (e : ICSEvent), e.begin = now - 3600 →
      (check_events_for_user user true (some [some [e]]) now false
        (fun _ => true) ledger).sent = []) ∧
    (∀ (user : UserRecord) (now : Int) (ledger : List SentEvent)
      (e : ICSEvent), e.begin = now - 3540 →
      is_event_sent false ledger user.id (get_event_id e) = false →
      (check_events_for_user user true (some [some [e]]) now false
        (fun _ => true) ledger).sent
        = [(user.chat_id, format_event_message e)]) := by
  refine ⟨fun user sr now re ledger => check_user_sent_eq user sr now re ledger,
    ?_, ?_, ?_⟩
  · intro user now ledger e he
    rw [check_user_sent_eq]
    have hg : get_events (some [some [e]]) = [e] := rfl
    have hdec : (decide (e.begin - now > -3600)) = false := by
      apply decide_eq_false
      omega
    have hpe : (!(is_event_sent false ledger user.id (get_event_id e)) &&
        decide (e.begin - now > -3600)) = false := by
      rw [hdec, Bool.and_false]
    rw [hg]
    simp only [List.filter_cons, hpe, Bool.false_eq_true, if_false,
      List.filter_nil, List.map_nil]
  · intro user now ledger e he
    rw [check_user_sent_eq]
    have hg : get_events (some [some [e]]) = [e] := rfl
    have hdec : (decide (e.begin - now > -3600)) = false := by
      apply decide_eq_false
      omega
    have hpe : (!(is_event_sent false ledger user.id (get_event_id e)) &&
        decide (e.begin - now > -3600)) = false := by
      rw [hdec, Bool.and_false]
    rw [hg]
    simp only [List.filter_cons, hpe, Bool.false_eq_true, if_false,
      List.filter_nil, List.map_nil]
  · intro user now ledger e he hsent
    rw [check_user_sent_eq]
    have hg : get_events (some [some [e]]) = [e] := rfl
    have hdec : (decide (e.begin - now > -3600)) = true := by
      apply decide_eq_true
      omega
    have hpe : (!(is_event_sent false ledger user.id (get_event_id e)) &&
        decide (e.begin - now > -3600)) = true := by
      rw [hdec, hsent]
      rfl
    rw [hg]
    simp only [List.filter_cons, hpe, if_true, List.filter_nil, List.map_cons,
      List.map_nil]

/-- Witness for C4 (amended) at the spec's boundary instances: at
`now = 0`, the event starting 61 minutes in the past is not delivered,
the one starting 59 minutes in the past is. -/
theorem c4_recency_window_strict_witness :
    (check_events_for_user user0 true (some [some [ev61]]) 0 false
      (fun _ => true) []).sent = [] ∧
    (check_events_for_user user0 true (some [some [ev59]]) 0 false
      (fun _ => true) []).sent = [(user0.chat_id, format_event_message ev59)] :=
  ⟨c4_recency_window_strict.2.1 user0 0 [] ev61 (by decide),
   c4_recency_window_strict.2.2.2 user0 0 [] ev59 (by decide) rfl⟩

/-- Claim C8: the messages a sync task delivers are the formatted
messages of a start-time-sorted event list (so they are sent in
non-decreasing start-time order even when a failure cuts the loop
short), and the sort is stable: for any start time, the events holding
it appear in source order. -/
theorem c8_delivery_order_sorted :
    (∀ (user : UserRecord) (connectOk : Bool)
      (searchResult : Option (List (Option (List ICSEvent)))) (now : Int)
      (readError : Bool) (sinkOk : ICSEvent → Bool) (ledger : List SentEvent),
      ∃ l : List ICSEvent,
        l.Pairwise (fun a b => a.begin ≤ b.begin) ∧
        (check_events_for_user user connectOk searchResult now readError sinkOk
          ledger).sent
          = l.map (fun e => (user.chat_id, format_event_message e))) ∧
    (∀ (l : List ICSEvent) (b : Int),
      (sortByBegin l).filter (fun e => e.begin == b)
        = l.filter (fun e => e.begin == b)) := by
  constructor
  · intro user connectOk searchResult now readError sinkOk ledger
    cases connectOk with
    | false =>
      exact ⟨[], List.Pairwise.nil, by rw [check_user_connect_false]; rfl⟩
    | true =>
      refine ⟨deliveredPart sinkOk ((get_events searchResult).filter (fun e =>
        !(is_event_sent readError ledger user.id (get_event_id e)) &&
        decide (e.begin - now > -3600))), ?_, ?_⟩
      · have h1 := pairwise_get_events searchResult
        have h2 : ((get_events searchResult).filter (fun e =>
            !(is_event_sent readError ledger user.id (get_event_id e)) &&
            decide (e.begin - now > -3600))).Pairwise
              (fun a b => a.begin ≤ b.begin) :=
          h1.sublist (List.filter_sublist _)
        exact h2.sublist (deliveredPart_sublist _ _)
      · rw [check_user_unfold, deliverLoop_sent_eq]
  · exact fun l b => sortByBegin_stable b l

/-- Claim C9: running the sync task a second time over the same remote
events and the ledger produced by the first run (all first-run
deliveries recorded, deliveries succeeding) sends nothing and adds no
ledger record. -/
theorem c9_second_run_is_noop (user : UserRecord)
    (searchResult : Option (List (Option (List ICSEvent)))) (now : Int)
    (ledger : List SentEvent) :
    (check_events_for_user user true searchResult now false (fun _ => true)
      ((check_events_for_user user true searchResult now false (fun _ => true)
        ledger).ledger)).sent = [] ∧
    (check_events_for_user user true searchResult now false (fun _ => true)
      ((check_events_for_user user true searchResult now false (fun _ => true)
        ledger).ledger)).ledger
      = (check_events_for_user user true searchResult now false (fun _ => true)
        ledger).ledger := by
  set L1 := (check_events_for_user user true searchResult now false
    (fun _ => true) ledger).ledger with hL1
  have hfilter : (get_events searchResult).filter (fun e =>
      !(is_event_sent false L1 user.id (get_event_id e)) &&
      decide (e.begin - now > -3600)) = [] := by
    apply List.filter_eq_nil_iff.2
    intro e he
    by_cases hrec : e.begin - now > -3600
    · by_cases hsent : is_event_sent false ledger user.id (get_event_id e) = true
      · have hs1 : is_event_sent false L1 user.id (get_event_id e) = true := by
          rw [hL1, check_user_unfold]
          exact is_event_sent_mono_deliverLoop user false (fun _ => true) _
            ledger user.id (get_event_id e) hsent
        simp [hs1]
      · have hsent' : is_event_sent false ledger user.id (get_event_id e)
            = false := by
          revert hsent
          cases is_event_sent false ledger user.id (get_event_id e) <;> simp
        have hin : e ∈ (get_events searchResult).filter (fun x =>
            !(is_event_sent false ledger user.id (get_event_id x)) &&
            decide (x.begin - now > -3600)) :=
          List.mem_filter.2 ⟨he, by simp [hsent', hrec]⟩
        have hs1 : is_event_sent false L1 user.id (get_event_id e) = true := by
          rw [hL1, check_user_unfold]
          exact deliverLoop_marks_all user _ ledger e hin
        simp [hs1]
    · simp [hrec]
  constructor
  · rw [check_user_unfold, hfilter]
    rfl
  · rw [check_user_unfold, hfilter]
    rfl

/-! ## Credential-store lemmas -/

theorem setCreds_chat_id (u : UserRecord) (username : Option String)
    (pw : String) (url : Option String) :
    (setCreds u username pw url).chat_id = u.chat_id := by
  unfold setCreds
  rcases url with _ | s
  · rfl
  · dsimp only
    split <;> rfl

theorem setCreds_username (u : UserRecord) (username : Option String)
    (pw : String) (url : Option String) :
    (setCreds u username pw url).icloud_username = username := by
  unfold setCreds
  rcases url with _ | s
  · rfl
  · dsimp only
    split <;> rfl

theorem setCreds_password (u : UserRecord) (username : Option String)
    (pw : String) (url : Option String) :
    (setCreds u username pw url).icloud_password = some pw := by
  unfold setCreds
  rcases url with _ | s
  · rfl
  · dsimp only
    split <;> rfl

theorem setCreds_url_of_nonempty (u : UserRecord) (username : Option String)
    (pw : String) (s : String) (hs : (s == "") = false) :
    (setCreds u username pw (some s)).icloud_url = s := by
  unfold setCreds
  simp [hs]

theorem writeCreds_none (c : Int) (username : Option String) (pw : String)
    (url : Option String) :
    ∀ store : List UserRecord,
      writeCreds c username pw url store = none →
      ∀ u ∈ store, u.chat_id ≠ c := by
  intro store
  induction store with
  | nil => intro _ u hu; cases hu
  | cons x rest ih =>
    intro h u hu
    simp only [writeCreds] at h
    by_cases hx : x.chat_id = c
    · rw [if_pos hx] at h
      cases h
    · rw [if_neg hx] at h
      rcases List.mem_cons.1 hu with rfl | hu'
      · exact hx
      · rcases hrec : writeCreds c username pw url rest with _ | s
        · exact ih hrec u hu'
        · rw [hrec] at h
          cases h

theorem writeCreds_some_filter (c : Int) (username : Option String)
    (pw : String) (url : Option String) :
    ∀ (store s : List UserRecord),
      store.countP (fun u => u.chat_id == c) ≤ 1 →
      writeCreds c username pw url store = some s →
      ∃ v : UserRecord, v.chat_id = c ∧
        s.filter (fun u => u.chat_id == c) = [setCreds v username pw url] := by
  intro store
  induction store with
  | nil => intro s _ h; cases h
  | cons x rest ih =>
    intro s hcount h
    simp only [writeCreds] at h
    by_cases hx : x.chat_id = c
    · rw [if_pos hx] at h
      have hs : s = setCreds x username pw url :: rest := by
        injection h with h'
        exact h'.symm
      subst hs
      refine ⟨x, hx, ?_⟩
      have hc0 : rest.countP (fun u => u.chat_id == c) = 0 := by
        rw [List.countP_cons] at hcount
        have hone : (if (x.chat_id == c) = true then 1 else 0) = 1 := by
          simp [hx]
        omega
      have hrest : rest.filter (fun u => u.chat_id == c) = [] :=
        List.filter_eq_nil_iff.2 (List.countP_eq_zero.1 hc0)
      have hpx : ((setCreds x username pw url).chat_id == c) = true := by
        rw [setCreds_chat_id]
        exact beq_iff_eq.2 hx
      simp [List.filter_cons, hpx, hrest]
    · rw [if_neg hx] at h
      rcases hrec : writeCreds c username pw url rest with _ | rest'
      · rw [hrec] at h
        cases h
      · rw [hrec] at h
        have hs : s = x :: rest' := by
          injection h with h'
          exact h'.symm
        subst hs
        have hcount' : rest.countP (fun u => u.chat_id == c) ≤ 1 := by
          rw [List.countP_cons] at hcount
          omega
        obtain ⟨v, hv, hfil⟩ := ih rest' hcount' hrec
        refine ⟨v, hv, ?_⟩
        have hpx : (x.chat_id == c) = false := by simp [hx]
        simp [List.filter_cons, hpx, hfil]

theorem update_user_credentials_of_absent (store : List UserRecord) (c : Int)
    (username : Option String) (pw : String) (url : Option String)
    (h : writeCreds c username pw url store = none) :
    (update_user_credentials store c username pw url).2
      = store ++ [create_user store c] := by
  unfold update_user_credentials
  rw [h]

theorem update_user_credentials_of_found (store s : List UserRecord) (c : Int)
    (username : Option String) (pw : String) (url : Option String)
    (h : writeCreds c username pw url store = some s) :
    (update_user_credentials store c username pw url).2 = s := by
  unfold update_user_credentials
  rw [h]

/-- Claim C6, evaluated at the failing fresh-enrollment input: username
"a@b.com" collected, secret "goodpass", the connectivity check succeeds,
and no row exists for the account.  The conversation ends and the
session is cleared as the claim says, and exactly one row is created for
the chat_id with the default endpoint — but its credential columns stay
NULL, not the entered username and secret: `create_user` commits the
fresh row in a separate, immediately closed session, and the credential
assignments on the detached instance it returns are never written by
the outer session's commit. -/
theorem c6_fresh_enrollment_keeps_null_credentials :
    (receive_password 1 "goodpass"
      { icloud_username := some "a@b.com", icloud_password := none } true
      []).state = ConvState.END ∧
    (receive_password 1 "goodpass"
      { icloud_username := some "a@b.com", icloud_password := none } true
      []).user_data = { icloud_username := none, icloud_password := none } ∧
    ∃ w : UserRecord,
      (receive_password 1 "goodpass"
        { icloud_username := some "a@b.com", icloud_password := none } true
        []).store = [w] ∧
      w.chat_id = 1 ∧
      w.icloud_url = "https://caldav.icloud.com/" ∧
      w.icloud_username = none ∧
      w.icloud_password = none :=
  ⟨rfl, rfl, ⟨create_user [] 1, rfl, rfl, rfl, rfl, rfl⟩⟩

end CalBot
